import Mathlib

/-
Verification of the mzcompose Composition engine
(src/misc/python/materialize/mzcompose/__init__.py).

The Python code is shallowly embedded: service configurations become a
structure of optional fields (a key that is absent from the Python dict is
`none`), the in-place mutation performed by `Composition._munge_services`
becomes explicit state passing (each step returns the new value of the
config, and a failing step returns the config as it stands at the moment
the exception is raised), and exceptions become an explicit error channel.
External collaborators (the Docker runtime, the mzbuild dependency
resolver) are modelled at their narrow interfaces: the resolver is a
function from build-reference names to concrete image references, and a
runtime invocation is a boolean outcome that does not touch the modelled
state.
-/

set_option autoImplicit false

namespace Mzcompose

/-- One service's configuration: the fields of `ServiceConfig` that the
Composition engine reads or writes. A field is `none` when the
corresponding key is absent from the Python dict. Ports are kept as
strings (Python applies `str` to each port before inspecting it; an
integer port renders as its decimal digits and never contains a colon). -/
structure ServiceConfig where
  mzbuild : Option String := none
  propagate_uid_gid : Option Bool := none
  allow_host_ports : Option Bool := none
  user : Option String := none
  image : Option String := none
  ports : Option (List String) := none
  volumes : Option (List String) := none
  environment : Option (List String) := none
  entrypoint : Option (List String) := none
  command : Option (List String) := none
deriving Repr, DecidableEq

/-- The `UIError`s raised by the Composition engine. `disallowedHostPort`
carries no name because the message in the source is the literal string
"programming error: disallowed host port in service ..." (the format is
not an f-string, so the name placeholder is not interpolated). -/
inductive MzErr where
  | unknownImage (name : String)
  | disallowedHostPort
  | duplicateTestCase (name : String)
  | invokeFailed
deriving Repr, DecidableEq

/-- A Python exception crossing the engine's boundary: either a `UIError`
raised by the engine (an `Exception`), or a `BaseException` that is not an
`Exception` (e.g. `KeyboardInterrupt`, `SystemExit`). -/
inductive PyErr where
  | ui (e : MzErr)
  | baseExc (msg : String)
deriving Repr, DecidableEq

/-- The context `_munge_services` reads: the repository's known mzbuild
image names, the `preserve_ports` flag, coverage mode, the host uid/gid,
and the dependency resolver (`deps[name].spec()`), modelled as a total
function because it is only consulted for validated names. -/
structure MungeCtx where
  repoImages : List String
  preserve_ports : Bool
  coverage : Bool
  uid : Nat
  gid : Nat
  resolve : String → String

/-- Step 2 of the munge: if `propagate_uid_gid` is present, inject
`user = "{uid}:{gid}"` when the flag is true, and delete the flag. -/
def applyUidGid (uid gid : Nat) (c : ServiceConfig) : ServiceConfig :=
  match c.propagate_uid_gid with
  | some b =>
    { c with
      user := if b then some (toString uid ++ ":" ++ toString gid) else c.user,
      propagate_uid_gid := none }
  | none => c

/-- Python's `":" in str(port)` test: the port string carries an explicit
host binding exactly when it contains a colon. Rendered on the string's
character list. -/
def hasColon (p : String) : Bool := p.toList.contains ':'

/-- The port loop of the munge, with the in-place list mutation made
explicit: the returned list is the state of `config["ports"]` when the
loop finishes or when the `DisallowedHostPort` error is raised (entries
before the failing one are already rewritten, the failing entry and the
rest are untouched). The boolean is true when the error is raised. -/
def mungePortsSt (preserve allowHost : Bool) : List String → List String × Bool
  | [] => ([], false)
  | p :: rest =>
    if preserve && !(hasColon p) then
      let r := mungePortsSt preserve allowHost rest
      ((p ++ ":" ++ p) :: r.1, r.2)
    else if hasColon p && !allowHost then
      (p :: rest, true)
    else
      let r := mungePortsSt preserve allowHost rest
      (p :: r.1, r.2)

/-- The bind-mount injected in coverage mode. -/
def coverageVolume : String := "./coverage:/coverage"

/-- The environment-variable key the coverage injection looks for. -/
def llvmKey : String := "LLVM_PROFILE_FILE="

/-- The environment entry injected in coverage mode for service `name`. -/
def llvmProfileLine (name : String) : String :=
  llvmKey ++ "/coverage/" ++ name ++ "-%p-%9m%c.profraw"

/-- Python's `env.startswith("LLVM_PROFILE_FILE=")`, rendered on the
character list of the string. -/
def hasLLVMKey (e : String) : Bool :=
  llvmKey.toList.isPrefixOf e.toList

/-- The environment loop of the coverage injection: replace the first
entry whose key is `LLVM_PROFILE_FILE` (then stop, mirroring `break`), or
append the new entry when no entry matches (the loop's `else` clause). -/
def envInject (v : String) : List String → List String
  | [] => [v]
  | e :: rest => if hasLLVMKey e then v :: rest else e :: envInject v rest

/-- Step 4 of the munge (coverage mode only): ensure the coverage
bind-mount is present (skip when already declared) and install exactly the
injected `LLVM_PROFILE_FILE` entry via `envInject`. -/
def injectCoverage (name : String) (c : ServiceConfig) : ServiceConfig :=
  let vols := c.volumes.getD []
  let c1 :=
    if coverageVolume ∈ vols then c
    else { c with volumes := some (vols ++ [coverageVolume]) }
  { c1 with environment := some (envInject (llvmProfileLine name) (c1.environment.getD [])) }

/-- The per-service munge body after the mzbuild validation: uid/gid
propagation, the port loop (`ports` is `setdefault`ed to `[]` before the
loop, so the key is present afterwards even on failure), stripping of
`allow_host_ports`, and the coverage injection. On failure the returned
config is its state at the raise. -/
def mungeConfigChecked (ctx : MungeCtx) (name : String) (c0 : ServiceConfig) :
    ServiceConfig × Option MzErr :=
  let c1 := applyUidGid ctx.uid ctx.gid c0
  let pr := mungePortsSt ctx.preserve_ports (c1.allow_host_ports.getD false) (c1.ports.getD [])
  let c2 := { c1 with ports := some pr.1 }
  if pr.2 then (c2, some .disallowedHostPort)
  else
    let c3 := { c2 with allow_host_ports := none }
    ((if ctx.coverage then injectCoverage name c3 else c3), none)

/-- The full per-service pass of `_munge_services` (first loop): the
mzbuild reference, when present, must name a known image (`UnknownImage`
otherwise, raised before any mutation of this config), then the checked
body runs. -/
def mungeConfigSt (ctx : MungeCtx) (name : String) (c : ServiceConfig) :
    ServiceConfig × Option MzErr :=
  match c.mzbuild with
  | some b =>
    if b ∈ ctx.repoImages then mungeConfigChecked ctx name c
    else (c, some (.unknownImage b))
  | none => mungeConfigChecked ctx name c

/-- The first loop of `_munge_services` over the service list, with the
in-place mutation made explicit: the returned list is the state of the
input configs when the loop finishes or the error is raised — configs
before the failing one are fully munged, the failing one is partially
munged, later ones are untouched. -/
def mungeListSt (ctx : MungeCtx) :
    List (String × ServiceConfig) → List (String × ServiceConfig) × Option MzErr
  | [] => ([], none)
  | (n, c) :: rest =>
    let r := mungeConfigSt ctx n c
    match r.2 with
    | some e => ((n, r.1) :: rest, some e)
    | none =>
      let rr := mungeListSt ctx rest
      ((n, r.1) :: rr.1, rr.2)

/-- The second loop of `_munge_services`: substitute each `mzbuild`
reference with the resolved concrete image reference and delete the
`mzbuild` key. -/
def resolveMzbuild (resolve : String → String) (c : ServiceConfig) : ServiceConfig :=
  match c.mzbuild with
  | some b => { c with image := some (resolve b), mzbuild := none }
  | none => c

/-- `_munge_services` with the mutable state explicit: the final state of
the input configs, paired with the error when one is raised. -/
def mungeServicesSt (ctx : MungeCtx) (svcs : List (String × ServiceConfig)) :
    List (String × ServiceConfig) × Option MzErr :=
  let r := mungeListSt ctx svcs
  match r.2 with
  | some e => (r.1, some e)
  | none => (r.1.map (fun p => (p.1, resolveMzbuild ctx.resolve p.2)), none)

/-- `_munge_services` as the caller sees it: the munged service list on
success, the raised error on failure (no list is returned then). -/
def mungeServices (ctx : MungeCtx) (svcs : List (String × ServiceConfig)) :
    Except MzErr (List (String × ServiceConfig)) :=
  let r := mungeServicesSt ctx svcs
  match r.2 with
  | some e => .error e
  | none => .ok r.1

/-- A TestResult as recorded by `Composition.test_case`: the elapsed wall
clock time and the stringified exception (or `none` on success). Times are
integers standing for the readings of `time.time()`. -/
structure TestResult where
  duration : Int
  error : Option String
deriving Repr, DecidableEq

/-- The live compose document: version tag, insertion-ordered map of
service name to config, and the named volumes (all mapped to null in the
source, so only the names matter here). -/
structure Compose where
  version : String
  services : List (String × ServiceConfig)
  volumes : List String
deriving Repr, DecidableEq

/-- The five default volumes the constructor always adds. -/
def defaultVolumes : List String := ["mzdata", "pgdata", "mydata", "tmp", "secrets"]

/-- Deterministic rendering of an optional scalar, standing in for the
YAML rendering of a possibly-absent key. -/
def serializeOpt (o : Option String) : String :=
  match o with
  | none => "~"
  | some s => s

/-- Deterministic rendering of a string list. -/
def serializeStrList (l : List String) : String :=
  "[" ++ String.intercalate "," l ++ "]"

/-- Deterministic rendering of an optional string list. -/
def serializeOptList (o : Option (List String)) : String :=
  match o with
  | none => "~"
  | some l => serializeStrList l

/-- Deterministic rendering of one service config, standing in for its
YAML rendering in the compose file. -/
def serializeConfig (c : ServiceConfig) : String :=
  String.intercalate ";"
    [ "mzbuild=" ++ serializeOpt c.mzbuild,
      "propagate_uid_gid=" ++ serializeOpt (c.propagate_uid_gid.map toString),
      "allow_host_ports=" ++ serializeOpt (c.allow_host_ports.map toString),
      "user=" ++ serializeOpt c.user,
      "image=" ++ serializeOpt c.image,
      "ports=" ++ serializeOptList c.ports,
      "volumes=" ++ serializeOptList c.volumes,
      "environment=" ++ serializeOptList c.environment,
      "entrypoint=" ++ serializeOptList c.entrypoint,
      "command=" ++ serializeOptList c.command ]

/-- Deterministic rendering of the whole compose document: the model of
`yaml.dump(self.compose)`. Equal documents serialize to equal bytes. -/
def serializeCompose (c : Compose) : String :=
  "version=" ++ c.version ++ "\n" ++
  String.intercalate "\n" (c.services.map (fun p => p.1 ++ ":" ++ serializeConfig p.2)) ++
  "\nvolumes=" ++ serializeStrList c.volumes

/-- The modelled mutable state of a `Composition`: the live compose
document, the bytes of the serialized temporary file (kept in sync by
`_write_compose`), and the ordered test-results map. -/
structure CState where
  compose : Compose
  file : String
  testResults : List (String × TestResult)
deriving Repr, DecidableEq

/-- Python dict assignment `services[name] = c` on the insertion-ordered
service map: replace the entry when the key is present, append otherwise. -/
def updateService (m : List (String × ServiceConfig)) (name : String) (c : ServiceConfig) :
    List (String × ServiceConfig) :=
  if m.any (fun p => p.1 == name) then
    m.map (fun p => if p.1 == name then (name, c) else p)
  else m ++ [(name, c)]

/-- The state just after `override` installs the munged replacement
services and re-serializes, i.e. the state the scoped body runs in.
(`deps.acquire()` and `pull_if_variable` invoke external commands and do
not touch the modelled state.) -/
def installOverride (s : CState) (munged : List (String × ServiceConfig)) : CState :=
  let compose1 :=
    { s.compose with
      services := munged.foldl (fun acc p => updateService acc p.1 p.2) s.compose.services }
  { s with compose := compose1, file := serializeCompose compose1 }

/-- `Composition.override` as a state transformer. The scoped body is a
function on the composition state that may finish normally or raise
(second component `some e`). If the munge of the replacements fails, the
error propagates before any mutation of the live document. Otherwise the
munged replacements are installed wholesale, the body runs, and the
`finally` block restores the saved deep copy of the document and
re-serializes it on both exit paths, re-raising the body's exception when
there is one. -/
def overrideRun (ctx : MungeCtx) (repl : List (String × ServiceConfig))
    (body : CState → CState × Option PyErr) (s : CState) : CState × Option PyErr :=
  match mungeServices ctx repl with
  | .error e => (s, some (.ui e))
  | .ok munged =>
    let r := body (installOverride s munged)
    ({ r.1 with compose := s.compose, file := serializeCompose s.compose }, r.2)

/-- The entrypoint/command override installed by `up(persistent=True)`. -/
def persistEntrypoint (c : ServiceConfig) : ServiceConfig :=
  { c with entrypoint := some ["sleep", "infinity"], command := some [] }

/-- `Composition.up` restricted to the modelled state. `invokeOk` is the
outcome of the external `docker compose up` invocation; on failure the
invocation raises `UIError` ("running docker compose failed"). In
persistent mode every service's entrypoint/command is overridden and the
document re-serialized before the invocation; the saved document is
restored only by the straight-line code after the invocation — there is
no try/finally here, so a failing invocation propagates with the
override still installed. -/
def upRun (persistent invokeOk : Bool) (s : CState) : CState × Option PyErr :=
  if persistent then
    let compose1 :=
      { s.compose with
        services := s.compose.services.map (fun p => (p.1, persistEntrypoint p.2)) }
    let s1 : CState := { s with compose := compose1, file := serializeCompose compose1 }
    if invokeOk then
      ({ s with compose := s.compose, file := serializeCompose s.compose }, none)
    else (s1, some (.ui .invokeFailed))
  else
    (s, if invokeOk then none else some (.ui .invokeFailed))

/-- The outcome of a test-case scope's body: normal completion, a raised
`Exception` with the given `str(e)`, or a raised `BaseException` that is
not an `Exception` (e.g. `KeyboardInterrupt`). -/
inductive BodyOutcome where
  | ok
  | exc (msg : String)
  | fatal (msg : String)
deriving Repr, DecidableEq

/-- `Composition.test_case` over the test-results map. A duplicate name
raises before the body runs (whatever the body would do). Otherwise the
body runs between the two clock readings `t0` and `t1`: normal completion
and `Exception`s are recorded (the latter with `error = str(e)`, caught
and not re-raised); a `BaseException` that is not an `Exception` escapes
the `except Exception` clause, so nothing is recorded and it propagates. -/
def test_case (name : String) (outcome : BodyOutcome) (t0 t1 : Int)
    (results : List (String × TestResult)) :
    List (String × TestResult) × Option PyErr :=
  if results.any (fun p => p.1 == name) then
    (results, some (.ui (.duplicateTestCase name)))
  else
    match outcome with
    | .ok => (results ++ [(name, ⟨t1 - t0, none⟩)], none)
    | .exc msg => (results ++ [(name, ⟨t1 - t0, some msg⟩)], none)
    | .fatal msg => (results, some (.baseExc msg))

/-
Concrete instances used by witnesses and counterexamples.
-/

/-- A concrete munge context: one known image, no port preservation, no
coverage, uid/gid 1000. -/
def ctx0 : MungeCtx :=
  { repoImages := ["materialized"], preserve_ports := false, coverage := false,
    uid := 1000, gid := 1000, resolve := fun _ => "img:abc" }

/-- A concrete live document with a single service `a` with empty config. -/
def compose0 : Compose :=
  { version := "3.7", services := [("a", {})], volumes := defaultVolumes }

/-- A concrete composition state whose file is in sync with its document. -/
def s0 : CState :=
  { compose := compose0, file := serializeCompose compose0, testResults := [] }

/-- A scoped body that raises a `BaseException` carrying "boom". -/
def bodyFail : CState → CState × Option PyErr := fun st => (st, some (.baseExc "boom"))

/-- A scoped body that succeeds exactly when service `b` is present in the
live document it observes, and raises otherwise. -/
def probeBody : CState → CState × Option PyErr := fun st =>
  (st, if st.compose.services.any (fun p => p.1 == "b") then none else some (.baseExc "absent"))

/-- A config with `propagate_uid_gid` set and a host-bound port. -/
def cfg3 : ServiceConfig := { propagate_uid_gid := some true, ports := some ["5432:5432"] }

/-- A config with a host-bound port and `allow_host_ports` unset. -/
def cfg4a : ServiceConfig := { ports := some ["5432:5432"] }

/-- A config with a host-bound port and `allow_host_ports` set. -/
def cfg4b : ServiceConfig := { allow_host_ports := some true, ports := some ["5432:5432"] }

/-- A config that already declares the coverage bind-mount and one prior
`LLVM_PROFILE_FILE` entry. -/
def cfg5 : ServiceConfig :=
  { volumes := some ["./coverage:/coverage"], environment := some ["LLVM_PROFILE_FILE=/old"] }

/-- A config carrying a known mzbuild reference. -/
def cfgM : ServiceConfig := { mzbuild := some "materialized" }

/-
Helper lemmas.
-/

theorem listIsPrefixOfAppend (l1 l2 : List Char) : l1.isPrefixOf (l1 ++ l2) = true := by
  induction l1 with
  | nil => simp [List.isPrefixOf]
  | cons a t ih => simp [List.isPrefixOf, ih]

theorem hasLLVMKey_llvmProfileLine (name : String) :
    hasLLVMKey (llvmProfileLine name) = true := by
  have h : (llvmProfileLine name).toList =
      llvmKey.toList ++ ("/coverage/".toList ++ name.toList ++ "-%p-%9m%c.profraw".toList) := by
    simp [llvmProfileLine, String.toList, String.data_append]
  unfold hasLLVMKey
  rw [h]
  exact listIsPrefixOfAppend _ _

theorem envInject_idem (v : String) (hv : hasLLVMKey v = true) (e : List String) :
    envInject v (envInject v e) = envInject v e := by
  induction e with
  | nil => simp [envInject, hv]
  | cons x rest ih =>
    by_cases hx : hasLLVMKey x = true
    · simp [envInject, hx, hv]
    · simp only [Bool.not_eq_true] at hx
      simp [envInject, hx, ih]

theorem envInject_countP (v : String) (hv : hasLLVMKey v = true) (e : List String)
    (he : e.countP hasLLVMKey ≤ 1) : (envInject v e).countP hasLLVMKey = 1 := by
  induction e with
  | nil => simp [envInject, List.countP_cons, hv]
  | cons x rest ih =>
    rw [List.countP_cons] at he
    by_cases hx : hasLLVMKey x = true
    · have h0 : rest.countP hasLLVMKey = 0 := by
        rw [hx] at he
        simp at he
        simpa using he
      simp [envInject, hx, List.countP_cons, hv, h0]
    · simp only [Bool.not_eq_true] at hx
      have he2 : rest.countP hasLLVMKey ≤ 1 := by
        rw [hx] at he
        simp at he
        exact he
      simp [envInject, hx, List.countP_cons, ih he2]

theorem envInject_mem (v : String) (e : List String) : v ∈ envInject v e := by
  induction e with
  | nil => simp [envInject]
  | cons x rest ih =>
    by_cases hx : hasLLVMKey x = true
    · simp [envInject, hx]
    · simp only [Bool.not_eq_true] at hx
      simp [envInject, hx]
      exact Or.inr ih

theorem injectCoverage_idem (name : String) (c : ServiceConfig) :
    injectCoverage name (injectCoverage name c) = injectCoverage name c := by
  unfold injectCoverage
  by_cases hm : coverageVolume ∈ c.volumes.getD []
  · have hm2 : coverageVolume ∈ c.volumes.getD [] ++ [coverageVolume] := by simp
    simp [hm, hm2, envInject_idem _ (hasLLVMKey_llvmProfileLine name)]
  · have hm2 : coverageVolume ∈ c.volumes.getD [] ++ [coverageVolume] := by simp
    simp [hm, hm2, envInject_idem _ (hasLLVMKey_llvmProfileLine name)]

theorem injectCoverage_mzbuild (name : String) (c : ServiceConfig) :
    (injectCoverage name c).mzbuild = c.mzbuild := by
  unfold injectCoverage
  by_cases hm : coverageVolume ∈ c.volumes.getD [] <;> simp [hm]

theorem injectCoverage_allow (name : String) (c : ServiceConfig) :
    (injectCoverage name c).allow_host_ports = c.allow_host_ports := by
  unfold injectCoverage
  by_cases hm : coverageVolume ∈ c.volumes.getD [] <;> simp [hm]

theorem injectCoverage_ports (name : String) (c : ServiceConfig) :
    (injectCoverage name c).ports = c.ports := by
  unfold injectCoverage
  by_cases hm : coverageVolume ∈ c.volumes.getD [] <;> simp [hm]

theorem applyUidGid_mzbuild (u g : Nat) (c : ServiceConfig) :
    (applyUidGid u g c).mzbuild = c.mzbuild := by
  unfold applyUidGid
  cases c.propagate_uid_gid <;> simp

theorem applyUidGid_allow (u g : Nat) (c : ServiceConfig) :
    (applyUidGid u g c).allow_host_ports = c.allow_host_ports := by
  unfold applyUidGid
  cases c.propagate_uid_gid <;> simp

theorem applyUidGid_ports (u g : Nat) (c : ServiceConfig) :
    (applyUidGid u g c).ports = c.ports := by
  unfold applyUidGid
  cases c.propagate_uid_gid <;> simp

theorem mungePortsSt_err (preserve : Bool) (l : List String)
    (h : ∃ p ∈ l, hasColon p = true) :
    (mungePortsSt preserve false l).2 = true := by
  induction l with
  | nil => simp at h
  | cons p rest ih =>
    obtain ⟨q, hq, hqc⟩ := h
    rw [List.mem_cons] at hq
    by_cases hp : hasColon p = true
    · have hc : (preserve && !(hasColon p)) = false := by simp [hp]
      simp [mungePortsSt, hc, hp]
    · simp only [Bool.not_eq_true] at hp
      have hq2 : q ∈ rest := by
        rcases hq with hq | hq
        · rw [hq] at hqc; rw [hp] at hqc; cases hqc
        · exact hq
      have ihr := ih ⟨q, hq2, hqc⟩
      cases preserve <;> simp [mungePortsSt, hp, ihr]

theorem mungePortsSt_allow_ok (preserve : Bool) (l : List String) :
    (mungePortsSt preserve true l).2 = false := by
  induction l with
  | nil => simp [mungePortsSt]
  | cons p rest ih =>
    by_cases hp : hasColon p = true
    · have hc : (preserve && !(hasColon p)) = false := by simp [hp]
      simp [mungePortsSt, hc, hp, ih]
    · simp only [Bool.not_eq_true] at hp
      cases preserve <;> simp [mungePortsSt, hp, ih]

theorem mungePortsSt_allow_mem (preserve : Bool) (l : List String) (p : String)
    (hp : p ∈ l) (hc : hasColon p = true) :
    p ∈ (mungePortsSt preserve true l).1 := by
  induction l with
  | nil => simp at hp
  | cons q rest ih =>
    rw [List.mem_cons] at hp
    rcases hp with hp | hp
    · subst hp
      have hcc : (preserve && !(hasColon p)) = false := by simp [hc]
      simp [mungePortsSt, hcc, hc]
    · by_cases hq : hasColon q = true
      · have hcc : (preserve && !(hasColon q)) = false := by simp [hq]
        simp only [mungePortsSt, hcc, Bool.false_eq_true, if_false, hq, Bool.true_and]
        simp only [Bool.not_eq_true', Bool.not_true] at *
        simp [List.mem_cons]
        exact Or.inr (ih hp)
      · simp only [Bool.not_eq_true] at hq
        cases preserve <;> simp [mungePortsSt, hq] <;> exact Or.inr (ih hp)

theorem mungeConfigChecked_mzbuild (ctx : MungeCtx) (name : String) (c : ServiceConfig) :
    (mungeConfigChecked ctx name c).1.mzbuild = c.mzbuild := by
  simp only [mungeConfigChecked]
  split
  · simp [applyUidGid_mzbuild]
  · split <;> simp [injectCoverage_mzbuild, applyUidGid_mzbuild]

theorem mungeConfigSt_mzbuild (ctx : MungeCtx) (name : String) (c : ServiceConfig) :
    (mungeConfigSt ctx name c).1.mzbuild = c.mzbuild := by
  unfold mungeConfigSt
  cases hm : c.mzbuild with
  | none =>
    dsimp only
    rw [mungeConfigChecked_mzbuild, hm]
  | some b =>
    dsimp only
    split
    · rw [mungeConfigChecked_mzbuild, hm]
    · exact hm

theorem mungeConfigChecked_allow (ctx : MungeCtx) (name : String) (c : ServiceConfig)
    (h : c.allow_host_ports = some true) :
    (mungeConfigChecked ctx name c).2 = none ∧
    (mungeConfigChecked ctx name c).1.allow_host_ports = none ∧
    ∀ p ∈ c.ports.getD [], hasColon p = true →
      p ∈ (mungeConfigChecked ctx name c).1.ports.getD [] := by
  have h1 : (applyUidGid ctx.uid ctx.gid c).allow_host_ports = some true := by
    rw [applyUidGid_allow, h]
  have h2 : (applyUidGid ctx.uid ctx.gid c).ports = c.ports := applyUidGid_ports ctx.uid ctx.gid c
  have h3 := mungePortsSt_allow_ok ctx.preserve_ports (c.ports.getD [])
  refine ⟨?_, ?_, ?_⟩
  · simp [mungeConfigChecked, h1, h2, h3]
  · simp only [mungeConfigChecked, h1, h2, Option.getD_some, h3, Bool.false_eq_true, if_false]
    split <;> simp [injectCoverage_allow]
  · intro p hp hc
    have hmem := mungePortsSt_allow_mem ctx.preserve_ports (c.ports.getD []) p hp hc
    simp only [mungeConfigChecked, h1, h2, Option.getD_some, h3, Bool.false_eq_true, if_false]
    split <;> simp [injectCoverage_ports, hmem]

theorem mungeConfigChecked_noAllow_err (ctx : MungeCtx) (name : String) (c : ServiceConfig)
    (h : c.allow_host_ports.getD false = false)
    (hp : ∃ p ∈ c.ports.getD [], hasColon p = true) :
    (mungeConfigChecked ctx name c).2 = some .disallowedHostPort := by
  have h1 : (applyUidGid ctx.uid ctx.gid c).allow_host_ports.getD false = false := by
    rw [applyUidGid_allow]; exact h
  have h2 : (applyUidGid ctx.uid ctx.gid c).ports = c.ports := applyUidGid_ports ctx.uid ctx.gid c
  simp [mungeConfigChecked, h1, h2, mungePortsSt_err ctx.preserve_ports _ hp]

theorem mungeConfigSt_eq_checked (ctx : MungeCtx) (name : String) (c : ServiceConfig)
    (hmz : ∀ b, c.mzbuild = some b → b ∈ ctx.repoImages) :
    mungeConfigSt ctx name c = mungeConfigChecked ctx name c := by
  unfold mungeConfigSt
  cases hm : c.mzbuild with
  | none => rfl
  | some b =>
    dsimp only
    rw [if_pos (hmz b hm)]

theorem mungeListSt_ok (ctx : MungeCtx) (svcs : List (String × ServiceConfig))
    (h : (mungeListSt ctx svcs).2 = none) :
    List.Forall₂ (fun p q => (mungeConfigSt ctx p.1 p.2).2 = none ∧
      q = (p.1, (mungeConfigSt ctx p.1 p.2).1)) svcs (mungeListSt ctx svcs).1 := by
  induction svcs with
  | nil => simp [mungeListSt]
  | cons hd tl ih =>
    obtain ⟨n, c⟩ := hd
    cases he : (mungeConfigSt ctx n c).2 with
    | some e => simp [mungeListSt, he] at h
    | none =>
      have h2 : (mungeListSt ctx tl).2 = none := by
        simpa [mungeListSt, he] using h
      have hstep : mungeListSt ctx ((n, c) :: tl) =
          ((n, (mungeConfigSt ctx n c).1) :: (mungeListSt ctx tl).1, (mungeListSt ctx tl).2) := by
        simp [mungeListSt, he]
      rw [hstep]
      exact List.Forall₂.cons ⟨he, rfl⟩ (ih h2)

theorem mungeListSt_names (ctx : MungeCtx) (svcs : List (String × ServiceConfig)) :
    (mungeListSt ctx svcs).1.map Prod.fst = svcs.map Prod.fst := by
  induction svcs with
  | nil => rfl
  | cons hd tl ih =>
    obtain ⟨n, c⟩ := hd
    cases he : (mungeConfigSt ctx n c).2 <;> simp [mungeListSt, he, ih]

theorem mungeServices_ok (ctx : MungeCtx) (svcs res : List (String × ServiceConfig))
    (h : mungeServices ctx svcs = .ok res) :
    (mungeListSt ctx svcs).2 = none ∧
    res = (mungeListSt ctx svcs).1.map (fun p => (p.1, resolveMzbuild ctx.resolve p.2)) := by
  cases he : (mungeListSt ctx svcs).2 with
  | some e => simp [mungeServices, mungeServicesSt, he] at h
  | none =>
    simp [mungeServices, mungeServicesSt, he] at h
    exact ⟨rfl, h.symm⟩

theorem mungeServices_names (ctx : MungeCtx) (svcs res : List (String × ServiceConfig))
    (h : mungeServices ctx svcs = .ok res) : res.map Prod.fst = svcs.map Prod.fst := by
  obtain ⟨h1, h2⟩ := mungeServices_ok ctx svcs res h
  subst h2
  have hmap : ∀ l : List (String × ServiceConfig),
      (l.map (fun p => (p.1, resolveMzbuild ctx.resolve p.2))).map Prod.fst = l.map Prod.fst := by
    intro l
    induction l with
    | nil => rfl
    | cons a t iht => simp [iht]
  rw [hmap]
  exact mungeListSt_names ctx svcs

theorem resolveMzbuild_clears (f : String → String) (c : ServiceConfig) :
    (resolveMzbuild f c).mzbuild = none := by
  unfold resolveMzbuild
  cases hm : c.mzbuild with
  | none => exact hm
  | some b => rfl

theorem resolveMzbuild_image (f : String → String) (c : ServiceConfig) (b : String)
    (h : c.mzbuild = some b) : (resolveMzbuild f c).image = some (f b) := by
  unfold resolveMzbuild
  rw [h]

theorem updateService_mem_name (l : List (String × ServiceConfig)) (n : String)
    (c : ServiceConfig) : (updateService l n c).any (fun p => p.1 == n) = true := by
  unfold updateService
  split
  · next hany =>
    obtain ⟨p, hp, hpe⟩ := List.any_eq_true.mp hany
    refine List.any_eq_true.mpr ⟨(n, c), List.mem_map.mpr ⟨p, hp, ?_⟩, by simp⟩
    simp [hpe]
  · simp [List.any_append]

/-
Claim theorems.
-/

/-- C3 (counterexample): a single service whose config sets
`propagate_uid_gid` and declares a host-bound port makes the munge fail
with `DisallowedHostPort`, yet the input config has been mutated in place
before the failure: the flag is stripped and the user directive injected.
This refutes the claim that no config in the input is left mutated when a
validation failure aborts the munge. -/
theorem munge_mutates_before_failure :
    (mungeServicesSt ctx0 [("a", cfg3)]).2 = some .disallowedHostPort ∧
    (mungeServicesSt ctx0 [("a", cfg3)]).1 =
      [("a", { user := some "1000:1000", ports := some ["5432:5432"] })] ∧
    (mungeServicesSt ctx0 [("a", cfg3)]).1 ≠ [("a", cfg3)] := by
  refine ⟨by decide, by decide, by decide⟩

/-- C3 (amended): any per-service validation failure aborts the whole
munge — the caller receives the error and no munged specification list is
returned; however, configs processed before the failure point keep their
in-place mutations (the counterexample exhibits a stripped flag and an
injected user directive on the failing run). -/
theorem munge_failure_returns_no_spec (ctx : MungeCtx) (svcs l : List (String × ServiceConfig))
    (e : MzErr) (h : mungeServicesSt ctx svcs = (l, some e)) :
    mungeServices ctx svcs = .error e := by
  simp [mungeServices, h]

theorem munge_failure_returns_no_spec_witness :
    mungeServices ctx0 [("a", cfg3)] = .error .disallowedHostPort :=
  munge_failure_returns_no_spec ctx0 [("a", cfg3)]
    [("a", { user := some "1000:1000", ports := some ["5432:5432"] })]
    .disallowedHostPort (by decide)

/-- C4: munging a service config whose mzbuild reference (if any) is
valid fails with `DisallowedHostPort` whenever some declared port carries
an explicit host binding (a colon) and `allow_host_ports` is not set; and
with `allow_host_ports` set to true the munge of that config succeeds,
every host-bound port entry is preserved verbatim in the rendered config,
and the `allow_host_ports` key is absent from the rendered config. -/
theorem munge_host_port_policy (ctx : MungeCtx) (name : String) (c : ServiceConfig)
    (hmz : ∀ b, c.mzbuild = some b → b ∈ ctx.repoImages) :
    ((c.allow_host_ports.getD false = false) →
      (∃ p ∈ c.ports.getD [], hasColon p = true) →
      (mungeConfigSt ctx name c).2 = some .disallowedHostPort) ∧
    (c.allow_host_ports = some true →
      (mungeConfigSt ctx name c).2 = none ∧
      (mungeConfigSt ctx name c).1.allow_host_ports = none ∧
      ∀ p ∈ c.ports.getD [], hasColon p = true →
        p ∈ (mungeConfigSt ctx name c).1.ports.getD []) := by
  rw [mungeConfigSt_eq_checked ctx name c hmz]
  exact ⟨fun h hp => mungeConfigChecked_noAllow_err ctx name c h hp,
    fun h => mungeConfigChecked_allow ctx name c h⟩

theorem munge_host_port_policy_witness :
    (mungeConfigSt ctx0 "a" cfg4a).2 = some .disallowedHostPort ∧
    (mungeConfigSt ctx0 "a" cfg4b).2 = none ∧
    (mungeConfigSt ctx0 "a" cfg4b).1.allow_host_ports = none ∧
    "5432:5432" ∈ (mungeConfigSt ctx0 "a" cfg4b).1.ports.getD [] := by
  have h1 := (munge_host_port_policy ctx0 "a" cfg4a (by simp [cfg4a])).1 (by decide)
    ⟨"5432:5432", by decide, by decide⟩
  have h2 := (munge_host_port_policy ctx0 "a" cfg4b (by simp [cfg4b])).2 (by decide)
  exact ⟨h1, h2.1, h2.2.1, h2.2.2 "5432:5432" (by decide) (by decide)⟩

/-- C5: the coverage injection applied by the munge when coverage mode is
active is idempotent, and on a config declaring at most one coverage
bind-mount and at most one `LLVM_PROFILE_FILE` environment entry it
yields exactly one coverage volume entry and exactly one environment
entry with that variable name, namely the injected coverage output path
(a prior entry with the same variable name is replaced, not duplicated). -/
theorem coverage_injection_idempotent (name : String) (c : ServiceConfig)
    (hv : (c.volumes.getD []).count coverageVolume ≤ 1)
    (he : (c.environment.getD []).countP hasLLVMKey ≤ 1) :
    injectCoverage name (injectCoverage name c) = injectCoverage name c ∧
    ((injectCoverage name c).volumes.getD []).count coverageVolume = 1 ∧
    ((injectCoverage name c).environment.getD []).countP hasLLVMKey = 1 ∧
    llvmProfileLine name ∈ (injectCoverage name c).environment.getD [] := by
  refine ⟨injectCoverage_idem name c, ?_, ?_, ?_⟩
  · by_cases hm : coverageVolume ∈ c.volumes.getD []
    · have hpos : 0 < (c.volumes.getD []).count coverageVolume := List.count_pos_iff.mpr hm
      simp [injectCoverage, hm]
      omega
    · have h0 : (c.volumes.getD []).count coverageVolume = 0 := by
        rw [List.count_eq_zero]; exact hm
      simp [injectCoverage, hm, List.count_append, h0]
  · by_cases hm : coverageVolume ∈ c.volumes.getD [] <;>
      simp [injectCoverage, hm, envInject_countP _ (hasLLVMKey_llvmProfileLine name) _ he]
  · by_cases hm : coverageVolume ∈ c.volumes.getD [] <;>
      simp [injectCoverage, hm, envInject_mem]

theorem coverage_injection_idempotent_witness :
    injectCoverage "svc" (injectCoverage "svc" cfg5) = injectCoverage "svc" cfg5 ∧
    ((injectCoverage "svc" cfg5).volumes.getD []).count coverageVolume = 1 ∧
    ((injectCoverage "svc" cfg5).environment.getD []).countP hasLLVMKey = 1 ∧
    llvmProfileLine "svc" ∈ (injectCoverage "svc" cfg5).environment.getD [] :=
  coverage_injection_idempotent "svc" cfg5 (by decide) (by decide)

/-- C6: after a successful munge, every rendered service config has no
`mzbuild` key, and every service that carried a build reference has its
`image` key set to the concrete reference returned by the resolver for
that name (its name is preserved). -/
theorem munge_resolves_build_references (ctx : MungeCtx)
    (svcs res : List (String × ServiceConfig)) (h : mungeServices ctx svcs = .ok res) :
    List.Forall₂ (fun p q => p.1 = q.1 ∧ q.2.mzbuild = none ∧
      ∀ b, p.2.mzbuild = some b → q.2.image = some (ctx.resolve b)) svcs res := by
  obtain ⟨h1, h2⟩ := mungeServices_ok ctx svcs res h
  subst h2
  have hf := mungeListSt_ok ctx svcs h1
  rw [List.forall₂_map_right_iff]
  refine List.Forall₂.imp ?_ hf
  intro p q hpq
  obtain ⟨hok, hq⟩ := hpq
  subst hq
  refine ⟨rfl, resolveMzbuild_clears ctx.resolve _, ?_⟩
  intro b hb
  have hmz : (mungeConfigSt ctx p.1 p.2).1.mzbuild = some b := by
    rw [mungeConfigSt_mzbuild]; exact hb
  exact resolveMzbuild_image ctx.resolve _ b hmz

theorem munge_resolves_build_references_witness :
    List.Forall₂ (fun (p q : String × ServiceConfig) => p.1 = q.1 ∧ q.2.mzbuild = none ∧
      ∀ b, p.2.mzbuild = some b → q.2.image = some (ctx0.resolve b))
      [("m", cfgM)] [("m", ({ image := some "img:abc", ports := some [] } : ServiceConfig))] :=
  munge_resolves_build_references ctx0 [("m", cfgM)]
    [("m", ({ image := some "img:abc", ports := some [] } : ServiceConfig))] rfl

/-- C1: `override` is atomic with respect to failure of the scoped body.
When the munge of the replacements succeeds (so the body is reached), on
every exit path — the body finishing normally or raising — the live
document is restored to its pre-call value and re-serialized, so the
serialized file is byte-for-byte the pre-call one (given the live
invariant that the file holds the serialization of the document), and the
body's outcome (normal or exceptional) is propagated unchanged. -/
theorem override_restores_on_body_failure (ctx : MungeCtx)
    (repl : List (String × ServiceConfig)) (body : CState → CState × Option PyErr)
    (s : CState) (m : List (String × ServiceConfig))
    (hm : mungeServices ctx repl = .ok m)
    (hfile : s.file = serializeCompose s.compose) :
    (overrideRun ctx repl body s).1.compose = s.compose ∧
    (overrideRun ctx repl body s).1.file = s.file ∧
    (overrideRun ctx repl body s).2 = (body (installOverride s m)).2 := by
  refine ⟨?_, ?_, ?_⟩ <;> simp [overrideRun, hm, hfile]

theorem override_restores_on_body_failure_witness :
    (overrideRun ctx0 [("a", {})] bodyFail s0).1.compose = s0.compose ∧
    (overrideRun ctx0 [("a", {})] bodyFail s0).1.file = s0.file ∧
    (overrideRun ctx0 [("a", {})] bodyFail s0).2 =
      (bodyFail (installOverride s0 [("a", ({ ports := some [] } : ServiceConfig))])).2 :=
  override_restores_on_body_failure ctx0 [("a", {})] bodyFail s0
    [("a", ({ ports := some [] } : ServiceConfig))] rfl rfl

/-- C2 (counterexample): `override` performs no existence check on the
replacement names. Service `b` is absent from the live document of `s0`,
yet overriding with a replacement named `b` raises nothing: the probing
body observes `b` present in the live document during the scope (it would
raise otherwise) and the whole call returns without any error — in
particular no `UnknownService` failure exists on this path. -/
theorem override_unknown_service_not_rejected :
    s0.compose.services.any (fun p => p.1 == "b") = false ∧
    (overrideRun ctx0 [("b", {})] probeBody s0).2 = none := by
  refine ⟨by decide, by decide⟩

/-- C2 (amended): `override` does not validate that a replacement's name
already exists in the live specification: the replacement is installed by
whole-value map update — appended when the name is absent — so during the
scope the name is always present, and the call's only error is the one
the scoped body raises (none when the body succeeds). The requirement
that services already exist is an unchecked documented precondition. -/
theorem override_installs_unknown_service (ctx : MungeCtx) (name : String)
    (cfg : ServiceConfig) (body : CState → CState × Option PyErr) (s : CState)
    (m : List (String × ServiceConfig))
    (hm : mungeServices ctx [(name, cfg)] = .ok m)
    (_habs : s.compose.services.any (fun p => p.1 == name) = false) :
    (installOverride s m).compose.services.any (fun p => p.1 == name) = true ∧
    (overrideRun ctx [(name, cfg)] body s).2 = (body (installOverride s m)).2 := by
  have hnames := mungeServices_names ctx [(name, cfg)] m hm
  obtain ⟨q, hq⟩ : ∃ q, m = [q] := by
    cases m with
    | nil => simp at hnames
    | cons a t =>
      cases t with
      | nil => exact ⟨a, rfl⟩
      | cons b t2 => simp at hnames
  have hq1 : q.1 = name := by
    subst hq
    simpa using hnames
  subst hq
  constructor
  · simp only [installOverride, List.foldl_cons, List.foldl_nil]
    rw [hq1]
    exact updateService_mem_name s.compose.services name q.2
  · simp [overrideRun, hm]

theorem override_installs_unknown_service_witness :
    (installOverride s0 [("b", ({ ports := some [] } : ServiceConfig))]).compose.services.any
      (fun p => p.1 == "b") = true ∧
    (overrideRun ctx0 [("b", {})] probeBody s0).2 =
      (probeBody (installOverride s0 [("b", ({ ports := some [] } : ServiceConfig))])).2 :=
  override_installs_unknown_service ctx0 "b" {} probeBody s0
    [("b", ({ ports := some [] } : ServiceConfig))] rfl (by decide)

/-- C7 (counterexample): a body raising an `Exception` whose string form
is empty is recorded with `error = some ""` — a present but empty
description — refuting the claim that the recorded error is always a
non-empty description of the failure. -/
theorem test_case_empty_error_description :
    (test_case "t" (.exc "") 0 5 []).1 = [("t", ⟨5, some ""⟩)] ∧
    ¬ ∃ s : String, s ≠ "" ∧ (test_case "t" (.exc "") 0 5 []).1 = [("t", ⟨5, some s⟩)] := by
  constructor
  · decide
  · rintro ⟨s, hs, h⟩
    have h1 : (test_case "t" (.exc "") 0 5 []).1 = [("t", ⟨5, some ""⟩)] := by decide
    rw [h1] at h
    simp only [List.cons.injEq, Prod.mk.injEq, TestResult.mk.injEq, Option.some.injEq,
      and_true, true_and] at h
    exact hs h.symm

/-- C7 (amended): under a fresh name and a clock that did not step
backwards, a test-case scope that completes normally records
`error = none`, a scope that raises an `Exception` does not propagate it
and records `error = some (str e)` — the exception's string form, which
may be empty — and in both cases the recorded duration `t1 - t0` is
nonnegative. -/
theorem test_case_records_outcome (name msg : String) (t0 t1 : Int)
    (results : List (String × TestResult))
    (hdup : results.any (fun p => p.1 == name) = false) (ht : t0 ≤ t1) :
    test_case name .ok t0 t1 results = (results ++ [(name, ⟨t1 - t0, none⟩)], none) ∧
    test_case name (.exc msg) t0 t1 results =
      (results ++ [(name, ⟨t1 - t0, some msg⟩)], none) ∧
    0 ≤ t1 - t0 := by
  refine ⟨?_, ?_, by omega⟩ <;> simp [test_case, hdup]

theorem test_case_records_outcome_witness :
    test_case "w" .ok 2 5 [] = ([("w", ⟨3, none⟩)], none) ∧
    test_case "w" (.exc "boom") 2 5 [] = ([("w", ⟨3, some "boom"⟩)], none) ∧
    (0 : Int) ≤ 5 - 2 :=
  test_case_records_outcome "w" "boom" 2 5 [] (by decide) (by decide)

/-- C8: invoking `test_case` with a name already present in the
test-results map fails with `DuplicateTestCase` before the body runs
(whatever the body's outcome would be), and the map — in particular the
first call's recorded result — is unchanged. -/
theorem test_case_duplicate_fails (name : String) (outcome : BodyOutcome) (t0 t1 : Int)
    (results : List (String × TestResult))
    (h : results.any (fun p => p.1 == name) = true) :
    test_case name outcome t0 t1 results = (results, some (.ui (.duplicateTestCase name))) := by
  simp [test_case, h]

theorem test_case_duplicate_fails_witness :
    test_case "x" (.exc "boom") 2 3 [("x", ⟨1, none⟩)] =
      ([("x", ⟨1, none⟩)], some (.ui (.duplicateTestCase "x"))) :=
  test_case_duplicate_fails "x" (.exc "boom") 2 3 [("x", ⟨1, none⟩)] (by decide)

/-- C9 (counterexample): when the external `up` invocation fails in
persistent mode, the override is not reverted: the final live document
still carries the `sleep infinity` entrypoint override and differs from
the pre-call document, refuting the claim that the original values are
restored regardless of the invocation's outcome. -/
theorem up_persistent_not_restored_on_failure :
    (upRun true false s0).1.compose ≠ s0.compose ∧
    (upRun true false s0).1.compose.services =
      [("a", ({ entrypoint := some ["sleep", "infinity"], command := some [] } : ServiceConfig))] ∧
    (upRun true false s0).2 = some (.ui .invokeFailed) := by
  refine ⟨by decide, by decide, by decide⟩

/-- C9 (amended): `up` in persistent mode overrides every service's
entrypoint/command with `sleep infinity` for the duration of the external
invocation and restores the saved document when the invocation completes
successfully; when the invocation fails, the failure propagates with the
override still installed (there is no restore on the failure path). -/
theorem up_persistent_restore_on_success (s : CState) :
    (upRun true true s).1.compose = s.compose ∧
    (upRun true true s).2 = none ∧
    (upRun true false s).1.compose.services =
      s.compose.services.map (fun p => (p.1, persistEntrypoint p.2)) ∧
    (upRun true false s).2 = some (.ui .invokeFailed) := by
  refine ⟨?_, ?_, ?_, ?_⟩ <;> simp [upRun]

/-- C10: a `BaseException` that is not an `Exception` raised inside a
test-case scope escapes the harness's `except Exception` clause: it
propagates out of the scope and no `TestResult` is entered under that
name (the results map is unchanged). -/
theorem test_case_base_exception_propagates (name msg : String) (t0 t1 : Int)
    (results : List (String × TestResult))
    (hdup : results.any (fun p => p.1 == name) = false) :
    test_case name (.fatal msg) t0 t1 results = (results, some (.baseExc msg)) := by
  simp [test_case, hdup]

theorem test_case_base_exception_propagates_witness :
    test_case "k" (.fatal "KeyboardInterrupt") 0 1 [] =
      ([], some (.baseExc "KeyboardInterrupt")) :=
  test_case_base_exception_propagates "k" "KeyboardInterrupt" 0 1 [] (by decide)

end Mzcompose
